import Mathlib

/-!
Shallow embedding of `src/btsniffer.py` (pwnagotchi-btsniffer plugin).

The embedding models the discovery-dedup-rollover-upload pipeline:
the scan loop (`scan`), the in-memory device ledger (`self.data`),
the CSV writer (`write_csv_header`, the per-device row append),
rotation (`check_rollover`), ledger bootstrap (`_load_existing_devices`),
the GPS fix reader (`get_gps_coords`), and the uploader
(`_list_csv_files`, `_upload_file`, `_upload_all`).

External collaborators (bluetoothctl, gpsd socket, the HTTP endpoint,
the filesystem) are modelled as explicit inputs/oracles, exactly as the
spec designates them black boxes.
-/

namespace BtSniffer

/-- Python `str.upper()` on the ASCII strings this code handles:
uppercase every character. -/
def pyUpper (s : String) : String := String.mk (s.data.map Char.toUpper)

/-- Python `str.lower()` on ASCII strings. -/
def pyLower (s : String) : String := String.mk (s.data.map Char.toLower)

/-- Whether `pat` is a prefix of `s`, on character lists. -/
def listStartsWith : List Char → List Char → Bool
  | _, [] => true
  | [], _ :: _ => false
  | c :: cs, p :: ps => c = p && listStartsWith cs ps

/-- Python `str.startswith`. -/
def pyStartsWith (s pat : String) : Bool := listStartsWith s.data pat.data

/-- Python `str.endswith`. -/
def pyEndsWith (s pat : String) : Bool := listStartsWith s.data.reverse pat.data.reverse

/-- Python `str.strip()`: remove leading and trailing whitespace. -/
def pyTrim (s : String) : String :=
  String.mk ((s.data.dropWhile Char.isWhitespace).reverse.dropWhile Char.isWhitespace).reverse

/-- Address normalization used throughout the source: `mac.upper()`.
MAC addresses are ASCII, on which Python `str.upper` uppercases each
character. -/
def normalize (m : String) : String := pyUpper m

/-- The in-memory ledger `self.data`: a finite map from normalized MAC
address to its `first_seen` string.  Modelled as an association list in
insertion order (Python dicts preserve insertion order). -/
abbrev Ledger := List (String × String)

/-- `mac in self.data` — dict membership test. -/
def ledgerMem (led : Ledger) (mac : String) : Bool :=
  (led.lookup mac).isSome

/-- One CSV data row as written by `scan` (the `writer.writerow([...])`
call): all fourteen fields, already formatted to strings. -/
structure CsvRow where
  mac : String
  name : String
  auth : String
  firstSeen : String
  channel : String
  frequency : String
  rssi : String
  lat : String
  lon : String
  alt : String
  acc : String
  rcois : String
  mfgr : String
  dtype : String
deriving Repr, DecidableEq

/-- The GPS fix `(lat, lon, alt, acc)` returned by `get_gps_coords`.
Coordinates are modelled as rationals (the Python floats' values). -/
structure Fix where
  lat : ℚ
  lon : ℚ
  alt : ℚ
  acc : ℚ
deriving Repr, DecidableEq

/-- Fixed-point decimal formatting modelling Python's `f"{x:.prec f}"`
for the non-negative values this code formats (truncation model; exact
for the all-zero fix the claims are about). -/
def formatFixed (x : ℚ) (prec : Nat) : String :=
  let scaled : Int := (x.num * (10 : Int) ^ prec).fdiv (x.den : Int)
  let ip : Int := scaled / (10 : Int) ^ prec
  let fp : Int := scaled % (10 : Int) ^ prec
  let fracDigits := toString fp.natAbs
  let pad := String.mk (List.replicate (prec - fracDigits.length) '0')
  toString ip ++ "." ++ pad ++ fracDigits

/-- Best-effort per-device metadata lookups (`get_device_manufacturer`,
`get_device_rssi`, `get_device_type`): black-box oracles keyed by MAC,
with the source's defaults already applied on lookup failure. -/
structure DeviceInfo where
  mfgr : String → String
  rssi : String → Int
  dtype : String → String

/-- The row built by `scan` for a newly seen device (the argument list
of `writer.writerow`). -/
def mkRow (info : DeviceInfo) (fix : Fix) (mac name firstSeen : String) : CsvRow :=
  { mac := mac
    name := name
    auth := "Misc [" ++ info.dtype mac ++ "]"
    firstSeen := firstSeen
    channel := "0"
    frequency := "0"
    rssi := toString (info.rssi mac)
    lat := formatFixed fix.lat 9
    lon := formatFixed fix.lon 9
    alt := formatFixed fix.alt 1
    acc := formatFixed fix.acc 6
    rcois := ""
    mfgr := info.mfgr mac
    dtype := info.dtype mac }

/-- Mutable state touched by the scan loop: the ledger `self.data` and
the data rows of the active CSV file (appended since the current epoch
began). -/
structure ScanState where
  data : Ledger
  fileRows : List CsvRow
deriving Repr

/-- Per-device body of the `for line in output` loop in `scan`
(`src/btsniffer.py:274–322`), after the black-box `bluetoothctl`
parsing has yielded a raw `(address, name)` pair:

* `mac = parts[1].upper()`;
* skip if `mac in self.options['blacklist']`;
* skip if `mac in self.data`;
* `self.data[mac] = {'first_seen': scan_time}`;
* append the CSV row, except that an I/O error during the append
  (`failAppend`) is caught and logged, leaving the file unchanged. -/
def scanStep (blacklist : List String) (info : DeviceInfo) (failAppend : String → Bool)
    (fix : Fix) (scanTime : String) (st : ScanState) (dev : String × String) : ScanState :=
  let mac := normalize dev.1
  if mac ∈ blacklist then st
  else if ledgerMem st.data mac then st
  else
    let data' := st.data ++ [(mac, scanTime)]
    if failAppend mac then { data := data', fileRows := st.fileRows }
    else { data := data', fileRows := st.fileRows ++ [mkRow info fix mac dev.2 scanTime] }

/-- The whole per-scan device loop: fold `scanStep` over the discovered
`(address, name)` pairs. -/
def scanDevices (blacklist : List String) (info : DeviceInfo) (failAppend : String → Bool)
    (fix : Fix) (scanTime : String) (st : ScanState) (devs : List (String × String)) : ScanState :=
  devs.foldl (scanStep blacklist info failAppend fix scanTime) st

/-- A sequence of scan ticks within one file epoch: each tick has its
own fix, timestamp, device list and I/O-failure oracle. -/
structure ScanTick where
  fix : Fix
  scanTime : String
  failAppend : String → Bool
  devs : List (String × String)

/-- Run a sequence of scan ticks from a state. -/
def runScans (blacklist : List String) (info : DeviceInfo)
    (st : ScanState) (ticks : List ScanTick) : ScanState :=
  ticks.foldl (fun s t => scanDevices blacklist info t.failAppend t.fix t.scanTime s t.devs) st

/-- The fresh state of a file epoch: empty ledger (after
`self.data.clear()` / plugin start), no data rows in the active file. -/
def freshState : ScanState := { data := [], fileRows := [] }

/-! ## Rotation (`write_csv_header`, `check_rollover`) -/

/-- The fixed preamble line written by `write_csv_header`
(`src/btsniffer.py:146–150`), without the trailing newline. -/
def preambleLine : String :=
  "WigleWifi-1.6,appRelease=1.0,model=RaspberryPi,release=jayofelony," ++
  "device=RaspberryPi,display=display,board=board," ++
  "brand=RaspberryPi,star=Sol,body=3,subBody=0"

/-- The column-header fields written by `write_csv_header`. -/
def headerFields : List String :=
  ["MAC", "SSID", "AuthMode", "FirstSeen", "Channel", "Frequency",
   "RSSI", "CurrentLatitude", "CurrentLongitude", "AltitudeMeters",
   "AccuracyMeters", "RCOIs", "MfgrId", "Type"]

/-- The column-header line as a raw CSV line. -/
def headerLine : String := String.intercalate "," headerFields

/-- Content of a freshly created active file: exactly the preamble line
and the column-header line. -/
def freshFileContent : List String := [preambleLine, headerLine]

/-- Byte-size model of a file stored as raw lines
(each line plus its terminating newline), standing in for
`os.path.getsize`. -/
def getsize (lines : List String) : Nat :=
  (lines.map (fun l => l.length + 1)).sum

/-- Python's `name.replace('.csv', '_' ++ ts ++ '.csv')` from
`check_rollover` (`src/btsniffer.py:376`), specialised to the pattern
`".csv"`: every occurrence of `.csv` in the name is replaced by
`_<ts>.csv`, left to right. -/
def replaceCsvChars (ts : String) : List Char → List Char
  | '.' :: 'c' :: 's' :: 'v' :: rest =>
      '_' :: (ts.toList ++ ('.' :: 'c' :: 's' :: 'v' :: replaceCsvChars ts rest))
  | c :: rest => c :: replaceCsvChars ts rest
  | [] => []

/-- The destination base name of a rotated file:
`os.path.basename(file_path).replace('.csv', f'_X.csv')` with the
timestamp `ts`. -/
def rotatedName (base ts : String) : String :=
  String.mk (replaceCsvChars ts base.toList)

/-- Filesystem state seen by the rotation path: the active file
(`none` when it does not exist, otherwise its lines) and the
upload-pending directory as a list of `(name, content)` pairs. -/
structure FsState where
  active : Option (List String)
  pending : List (String × List String)
deriving Repr, DecidableEq

/-- `check_rollover` (`src/btsniffer.py:365–386`): when the active file
exists and its size is at or above `sizeLimit`, the file is moved into
the pending directory under `rotatedName base ts`, a fresh active file
holding only the preamble and header is recreated via
`write_csv_header`, and `self.data` is cleared; otherwise nothing
changes. -/
def check_rollover (base : String) (sizeLimit : Nat) (ts : String)
    (fs : FsState) (led : Ledger) : FsState × Ledger :=
  match fs.active with
  | none => (fs, led)
  | some content =>
    if sizeLimit ≤ getsize content then
      ({ active := some freshFileContent,
         pending := fs.pending ++ [(rotatedName base ts, content)] }, [])
    else (fs, led)

/-! ## Ledger bootstrap (`_load_existing_devices`) -/

/-- The address a CSV row yields during bootstrap:
`row[0].strip().upper()`. -/
def rowMac (row : List String) : String := normalize (pyTrim (row.headD ""))

/-- The body of the `for row in reader` loop of `_load_existing_devices`
(`src/btsniffer.py:186–193`): non-empty rows contribute
`row[0].strip().upper()` when it is non-empty, not the literal `MAC`,
and not already present; `first_seen` is `row[3]` when the row has more
than three fields, else the current time `now`. -/
def loadRow (now : String) (acc : Ledger) (row : List String) : Ledger :=
  if row.length > 0 then
    let mac := rowMac row
    if mac ≠ "" ∧ mac ≠ "MAC" then
      if ledgerMem acc mac then acc
      else acc ++ [(mac, if 3 < row.length then row.getD 3 "" else now)]
    else acc
  else acc

/-- `_load_existing_devices` (`src/btsniffer.py:164–197`), acting on the
already-CSV-parsed rows of the existing file: skip the first line when
it starts with `WigleWifi`, require the next row to be a header whose
first field is `MAC` (otherwise give up with an empty ledger), then
fold `loadRow` over the data rows.  The function is total: malformed
rows are skipped, never raised to the caller. -/
def _load_existing_devices (now : String) (fileRows : List (List String)) : Ledger :=
  let rows :=
    match fileRows with
    | first :: rest => if pyStartsWith (first.headD "") "WigleWifi" then rest else fileRows
    | [] => []
  match rows with
  | [] => []
  | header :: dataRows =>
    if header.headD "" = "MAC" ∧ header ≠ [] then dataRows.foldl (loadRow now) []
    else []

/-- The blacklist normalization done in `on_loaded`
(`src/btsniffer.py:72–73`): every configured address is uppercased. -/
def loadBlacklist (cfg : List String) : List String := cfg.map pyUpper

/-! ## GPS fix (`get_gps_coords`) -/

/-- One newline-delimited message received from the location daemon,
after `json.loads`: either malformed JSON, or an object with a `class`
field and the coordinate fields the code reads (each possibly absent). -/
inductive GpsMsg where
  | malformed
  | obj (cls : String) (lat lon altMSL alt epx eps : Option ℚ)
deriving Repr, DecidableEq

/-- Whether a message is the first-consumed `TPV` object. -/
def isTPV : GpsMsg → Bool
  | .malformed => false
  | .obj cls _ _ _ _ _ _ => cls = "TPV"

/-- The read loop of `get_gps_coords`: scan the received messages in
order, malformed ones are skipped, and the first object whose `class`
is `TPV` is kept (`raise StopIteration` breaks out of the loop). -/
def findTPV : List GpsMsg → Option GpsMsg
  | [] => none
  | m :: rest => if isTPV m then some m else findTPV rest

/-- `get_gps_coords` (`src/btsniffer.py:200–242`).  `connected = false`
models a connection failure; `msgs` are the messages received before
the deadline (a timeout means no `TPV` among them).  On any failure the
all-zero fix is returned; otherwise the fields are extracted with the
source's fallbacks (`altMSL` before `alt`, `epx` before `eps`, absent
or null values collapsing to `0.0`). -/
def get_gps_coords (connected : Bool) (msgs : List GpsMsg) : Fix :=
  let gpsData := if connected then findTPV msgs else none
  match gpsData with
  | some (.obj _ lat lon altMSL alt epx eps) =>
      { lat := lat.getD 0
        lon := lon.getD 0
        alt := match altMSL with | some v => v | none => alt.getD 0
        acc := match epx with | some v => v | none => eps.getD 0 }
  | _ => { lat := 0, lon := 0, alt := 0, acc := 0 }

/-! ## Uploader (`_list_csv_files`, `_upload_file`, `_upload_all`) -/

/-- A directory entry as observed by `_list_csv_files`: a name, whether
it is a regular file, and its modification time. -/
structure DirEntry where
  name : String
  isFile : Bool
  mtime : Nat
deriving Repr, DecidableEq

/-- Comparison by modification time, the sort key of
`files.sort(key=lambda f: os.path.getmtime(f))`. -/
def mtimeLe (a b : DirEntry) : Prop := a.mtime ≤ b.mtime

instance : DecidableRel mtimeLe := fun a b => Nat.decLe a.mtime b.mtime

instance : IsTotal DirEntry mtimeLe := ⟨fun a b => Nat.le_total a.mtime b.mtime⟩

instance : IsTrans DirEntry mtimeLe := ⟨fun _ _ _ => Nat.le_trans⟩

/-- `files.sort(key=lambda f: os.path.getmtime(f))`: a stable sort by
modification time ascending. -/
def sortByMtime (l : List DirEntry) : List DirEntry := List.insertionSort mtimeLe l

/-- The filter of `_list_csv_files` (`src/btsniffer.py:398–406`):
names ending in `.csv` case-insensitively that are regular files. -/
def isCsvFile (e : DirEntry) : Bool :=
  pyEndsWith (pyLower e.name) ".csv" && e.isFile

/-- `_list_csv_files`: the `.csv` regular files of the upload
directory, sorted by modification time ascending. -/
def _list_csv_files (entries : List DirEntry) : List String :=
  (sortByMtime (entries.filter isCsvFile)).map DirEntry.name

/-- Outcome of the HTTP POST in `_upload_file`: a transport error, or a
response with a status code and a body — `none` for a body that is not
JSON (or has no usable `success` field), `some b` for a JSON body whose
`success` indicator has truthiness `b`. -/
inductive HttpResult where
  | netError
  | resp (status : Nat) (body : Option Bool)
deriving Repr, DecidableEq

/-- The files on disk seen by the uploader: names present in the
upload-pending directory and in the uploaded holding area. -/
structure UploadFs where
  pending : List String
  uploaded : List String
deriving Repr, DecidableEq

/-- The uploader configuration (`self.uploader_options`): WiGLE
credentials (empty string = missing, matching Python falsiness) and the
`remove_on_success` retention flag. -/
structure UploadCfg where
  wigle_name : String
  wigle_api_token : String
  remove_on_success : Bool
deriving Repr, DecidableEq

/-- `_upload_file` (`src/btsniffer.py:408–462`).  `moveFails` and
`deleteFails` are oracles for the two filesystem calls inside the inner
`try` (the `shutil.move` and the `os.remove`); an exception from either
is caught by the inner `except` and the function still returns `True`.
All failure paths return `False` with the filesystem untouched. -/
def _upload_file (cfg : UploadCfg) (moveFails deleteFails : Bool)
    (http : HttpResult) (f : String) (fs : UploadFs) : Bool × UploadFs :=
  if cfg.wigle_name = "" ∨ cfg.wigle_api_token = "" then (false, fs)
  else
    match http with
    | .netError => (false, fs)
    | .resp status body =>
      if status = 200 then
        match body with
        | some true =>
          if moveFails then (true, fs)
          else
            let fs' : UploadFs :=
              { pending := fs.pending.erase f, uploaded := fs.uploaded ++ [f] }
            if cfg.remove_on_success then
              if deleteFails then (true, fs')
              else (true, { fs' with uploaded := fs'.uploaded.erase f })
            else (true, fs')
        | _ => (false, fs)
      else (false, fs)

/-- The under-lock body of `_upload_all` (`src/btsniffer.py:469–479`):
process every candidate in the given order, recording each attempt's
result; a `False` from `_upload_file` never stops the loop. -/
def uploadAllFiles (upload : String → UploadFs → Bool × UploadFs)
    (files : List String) (fs : UploadFs) : List (String × Bool) × UploadFs :=
  files.foldl (fun acc f =>
    let r := upload f acc.2
    (acc.1 ++ [(f, r.1)], r.2)) ([], fs)

/-! ## Drain exclusivity (`_upload_all` and `self._uploader_lock`) -/

/-- Program counter of one drain worker running `_upload_all`:
`check` is the `if self._uploader_lock.locked(): return` test,
`acquire` is the blocking entry of `with self._uploader_lock`,
`crit` is the upload loop under the lock, `release` is the exit of the
`with` block, and `done ran` records whether the body ever ran. -/
inductive DrainPC where
  | check | acquire | crit | release | done (ran : Bool)
deriving Repr, DecidableEq, Fintype

/-- The two concurrent drain triggers (periodic tick and
`on_internet_available`). -/
inductive Tid where
  | A | B
deriving Repr, DecidableEq, Fintype

/-- Global state of two concurrently triggered drains sharing
`self._uploader_lock`. -/
structure LockState where
  lock : Bool
  pcA : DrainPC
  pcB : DrainPC
deriving Repr, DecidableEq, Fintype

/-- One step of a drain worker given the current lock value: the
`.locked()` check returns without draining when the lock is observed
held; the `with` entry acquires when free and blocks (no progress)
when held; the body then runs and the `with` exit releases. -/
def stepThread (lock : Bool) : DrainPC → DrainPC × Bool
  | .check => if lock then (.done false, lock) else (.acquire, lock)
  | .acquire => if lock then (.acquire, lock) else (.crit, true)
  | .crit => (.release, lock)
  | .release => (.done true, false)
  | .done r => (.done r, lock)

/-- Interleaving semantics: schedule one step of the chosen thread. -/
def stepSys (s : LockState) : Tid → LockState
  | .A => let r := stepThread s.lock s.pcA; { s with pcA := r.1, lock := r.2 }
  | .B => let r := stepThread s.lock s.pcB; { s with pcB := r.1, lock := r.2 }

/-- Run a whole schedule of thread choices. -/
def runSched (s : LockState) (sched : List Tid) : LockState :=
  sched.foldl stepSys s

/-- Initial state: lock free, both triggers about to run `_upload_all`. -/
def initLock : LockState := { lock := false, pcA := .check, pcB := .check }

/-- Whether a worker is inside the `with self._uploader_lock` region
(executing the drain body or about to release). -/
def inCrit : DrainPC → Bool
  | .crit => true
  | .release => true
  | _ => false

/-! ## Shared lemmas about the ledger and the scan loop -/

theorem ledgerMem_append (l : Ledger) (k v m : String) :
    ledgerMem (l ++ [(k, v)]) m = (ledgerMem l m || m == k) := by
  induction l with
  | nil =>
    simp only [List.nil_append, ledgerMem, List.lookup]
    cases h : m == k <;> simp [h]
  | cons p rest ih =>
    obtain ⟨pk, pv⟩ := p
    by_cases h : m == pk
    · simp [ledgerMem, List.lookup, h]
    · simpa [ledgerMem, List.lookup, h] using ih

theorem ledgerMem_append_self (l : Ledger) (k v : String) :
    ledgerMem (l ++ [(k, v)]) k = true := by
  simp [ledgerMem_append]

theorem ledgerMem_append_other (l : Ledger) (k v m : String) (h : m ≠ k) :
    ledgerMem (l ++ [(k, v)]) m = ledgerMem l m := by
  simp [ledgerMem_append, h]

/-- Monotonicity: a ledger entry survives any scan step (`self.data`
only ever gains keys during a scan). -/
theorem ledgerMem_scanStep (bl : List String) (info : DeviceInfo)
    (fa : String → Bool) (fix : Fix) (t : String) (st : ScanState)
    (dev : String × String) (m : String) (h : ledgerMem st.data m = true) :
    ledgerMem (scanStep bl info fa fix t st dev).data m = true := by
  simp only [scanStep]
  split
  · exact h
  · split
    · exact h
    · split <;> simp_all [ledgerMem_append]

/-- The invariant of claim C1: data-row addresses are pairwise distinct
and every row's address is tracked in the ledger. -/
def ScanInv (st : ScanState) : Prop :=
  (st.fileRows.map CsvRow.mac).Nodup ∧
  ∀ r ∈ st.fileRows, ledgerMem st.data r.mac = true

theorem scanInv_step (bl : List String) (info : DeviceInfo)
    (fa : String → Bool) (fix : Fix) (t : String) (st : ScanState)
    (dev : String × String) (h : ScanInv st) :
    ScanInv (scanStep bl info fa fix t st dev) := by
  obtain ⟨hnd, hmem⟩ := h
  simp only [scanStep]
  split
  · exact ⟨hnd, hmem⟩
  · rename_i hbl
    split
    · exact ⟨hnd, hmem⟩
    · rename_i hseen
      split
      · refine ⟨hnd, fun r hr => ?_⟩
        simp only [ledgerMem_append]
        simp [hmem r hr]
      · constructor
        · simp only [List.map_append, List.map_cons, List.map_nil]
          rw [List.nodup_append]
          refine ⟨hnd, List.nodup_singleton _, ?_⟩
          intro a ha hb
          simp only [mkRow, List.mem_singleton, List.mem_cons, List.not_mem_nil, or_false] at hb
          subst hb
          simp only [List.mem_map] at ha
          obtain ⟨r, hr, hrm⟩ := ha
          have := hmem r hr
          rw [hrm] at this
          rw [this] at hseen
          exact hseen rfl
        · intro r hr
          simp only [List.mem_append, List.mem_singleton] at hr
          rcases hr with hr | hr
          · simp only [ledgerMem_append]
            simp [hmem r hr]
          · subst hr
            simp [mkRow, ledgerMem_append_self]

theorem scanInv_scanDevices (bl : List String) (info : DeviceInfo)
    (fa : String → Bool) (fix : Fix) (t : String) (st : ScanState)
    (devs : List (String × String)) (h : ScanInv st) :
    ScanInv (scanDevices bl info fa fix t st devs) := by
  induction devs generalizing st with
  | nil => exact h
  | cons d rest ih =>
    exact ih _ (scanInv_step bl info fa fix t st d h)

theorem scanInv_runScans (bl : List String) (info : DeviceInfo)
    (st : ScanState) (ticks : List ScanTick) (h : ScanInv st) :
    ScanInv (runScans bl info st ticks) := by
  induction ticks generalizing st with
  | nil => exact h
  | cons tk rest ih =>
    exact ih _ (scanInv_scanDevices bl info tk.failAppend tk.fix tk.scanTime st tk.devs h)

/-- The exact ledger/row correspondence holding when no append fails:
an address is tracked exactly when it has a row. -/
def ScanInvExact (st : ScanState) : Prop :=
  ∀ m, ledgerMem st.data m = true ↔ m ∈ st.fileRows.map CsvRow.mac

theorem scanInvExact_step (bl : List String) (info : DeviceInfo)
    (fa : String → Bool) (fix : Fix) (t : String) (st : ScanState)
    (dev : String × String) (hfa : ∀ m, fa m = false) (h : ScanInvExact st) :
    ScanInvExact (scanStep bl info fa fix t st dev) := by
  simp only [scanStep]
  split
  · exact h
  · split
    · exact h
    · rw [hfa]
      simp only [Bool.false_eq_true, if_false]
      intro m
      simp only [ledgerMem_append, List.map_append, List.map_cons, List.map_nil,
        List.mem_append, List.mem_singleton, mkRow, Bool.or_eq_true, beq_iff_eq]
      rw [h m]

theorem scanInvExact_scanDevices (bl : List String) (info : DeviceInfo)
    (fa : String → Bool) (fix : Fix) (t : String) (st : ScanState)
    (devs : List (String × String)) (hfa : ∀ m, fa m = false) (h : ScanInvExact st) :
    ScanInvExact (scanDevices bl info fa fix t st devs) := by
  induction devs generalizing st with
  | nil => exact h
  | cons d rest ih =>
    exact ih _ (scanInvExact_step bl info fa fix t st d hfa h)

theorem scanInvExact_runScans (bl : List String) (info : DeviceInfo)
    (st : ScanState) (ticks : List ScanTick)
    (hfa : ∀ tk ∈ ticks, ∀ m, tk.failAppend m = false) (h : ScanInvExact st) :
    ScanInvExact (runScans bl info st ticks) := by
  induction ticks generalizing st with
  | nil => exact h
  | cons tk rest ih =>
    have h1 := scanInvExact_scanDevices bl info tk.failAppend tk.fix tk.scanTime st tk.devs
      (hfa tk (List.mem_cons_self _ _)) h
    exact ih _ (fun tk2 h2 => hfa tk2 (List.mem_cons_of_mem _ h2)) h1

/-- Exhaustive description of one scan step: either the device is
skipped entirely, or its normalized address was unblacklisted and
unseen, gets appended to the ledger, and its row is appended exactly
when the write does not fail. -/
theorem scanStep_cases (bl : List String) (info : DeviceInfo)
    (fa : String → Bool) (fix : Fix) (t : String) (st : ScanState)
    (dev : String × String) :
    scanStep bl info fa fix t st dev = st ∨
    ((scanStep bl info fa fix t st dev).data = st.data ++ [(normalize dev.1, t)] ∧
     ((scanStep bl info fa fix t st dev).fileRows = st.fileRows ∨
      (scanStep bl info fa fix t st dev).fileRows =
        st.fileRows ++ [mkRow info fix (normalize dev.1) dev.2 t]) ∧
     normalize dev.1 ∉ bl ∧ ledgerMem st.data (normalize dev.1) = false) := by
  simp only [scanStep]
  split
  · exact Or.inl rfl
  · split
    · exact Or.inl rfl
    · rename_i hbl hseen
      split
      · exact Or.inr ⟨rfl, Or.inl rfl, hbl, by simpa using hseen⟩
      · exact Or.inr ⟨rfl, Or.inr rfl, hbl, by simpa using hseen⟩

/-- A device already present in the ledger (and any blacklisted one)
leaves the state untouched. -/
theorem scanStep_seen (bl : List String) (info : DeviceInfo)
    (fa : String → Bool) (fix : Fix) (t : String) (st : ScanState)
    (dev : String × String) (h : ledgerMem st.data (normalize dev.1) = true) :
    scanStep bl info fa fix t st dev = st := by
  simp only [scanStep]
  split
  · rfl
  · simp [h]

theorem ledgerMem_scanDevices (bl : List String) (info : DeviceInfo)
    (fa : String → Bool) (fix : Fix) (t : String) (st : ScanState)
    (devs : List (String × String)) (m : String) (h : ledgerMem st.data m = true) :
    ledgerMem (scanDevices bl info fa fix t st devs).data m = true := by
  induction devs generalizing st with
  | nil => exact h
  | cons d rest ih => exact ih _ (ledgerMem_scanStep bl info fa fix t st d m h)

theorem ledgerMem_runScans (bl : List String) (info : DeviceInfo)
    (st : ScanState) (ticks : List ScanTick) (m : String)
    (h : ledgerMem st.data m = true) :
    ledgerMem (runScans bl info st ticks).data m = true := by
  induction ticks generalizing st with
  | nil => exact h
  | cons tk rest ih =>
    exact ih _ (ledgerMem_scanDevices bl info tk.failAppend tk.fix tk.scanTime st tk.devs m h)

theorem scanDevices_cons (bl : List String) (info : DeviceInfo)
    (fa : String → Bool) (fix : Fix) (t : String) (st : ScanState)
    (d : String × String) (devs : List (String × String)) :
    scanDevices bl info fa fix t st (d :: devs) =
      scanDevices bl info fa fix t (scanStep bl info fa fix t st d) devs := rfl

theorem runScans_cons (bl : List String) (info : DeviceInfo)
    (st : ScanState) (tk : ScanTick) (ticks : List ScanTick) :
    runScans bl info st (tk :: ticks) =
      runScans bl info
        (scanDevices bl info tk.failAppend tk.fix tk.scanTime st tk.devs) ticks := rfl

/-- Any data row present after a scan either was already there or
belongs to an address that was unblacklisted and unseen beforehand. -/
theorem scanDevices_new_row (bl : List String) (info : DeviceInfo)
    (fa : String → Bool) (fix : Fix) (t : String) (st : ScanState)
    (devs : List (String × String)) :
    ∀ r ∈ (scanDevices bl info fa fix t st devs).fileRows,
      r ∈ st.fileRows ∨ (r.mac ∉ bl ∧ ledgerMem st.data r.mac = false) := by
  induction devs generalizing st with
  | nil => exact fun r hr => Or.inl hr
  | cons d rest ih =>
    intro r hr
    rw [scanDevices_cons] at hr
    have hstep := scanStep_cases bl info fa fix t st d
    rcases hstep with heq | ⟨hdata, hrows, hbl, hseen⟩
    · rw [heq] at hr
      exact ih st r hr
    · have hr2 := ih (scanStep bl info fa fix t st d) r hr
      rcases hr2 with h1 | ⟨h2, h3⟩
      · rcases hrows with he | he
        · exact Or.inl (he ▸ h1)
        · rw [he, List.mem_append, List.mem_singleton] at h1
          rcases h1 with h1 | h1
          · exact Or.inl h1
          · subst h1
            refine Or.inr ⟨?_, ?_⟩
            · simp only [mkRow]
              exact hbl
            · simp only [mkRow]
              exact hseen
      · right
        refine ⟨h2, ?_⟩
        rw [hdata, ledgerMem_append] at h3
        cases hc : ledgerMem st.data r.mac with
        | false => rfl
        | true => simp [hc] at h3

theorem runScans_new_row (bl : List String) (info : DeviceInfo)
    (st : ScanState) (ticks : List ScanTick) :
    ∀ r ∈ (runScans bl info st ticks).fileRows,
      r ∈ st.fileRows ∨ (r.mac ∉ bl ∧ ledgerMem st.data r.mac = false) := by
  induction ticks generalizing st with
  | nil => exact fun r hr => Or.inl hr
  | cons tk rest ih =>
    intro r hr
    have h1 := ih (scanDevices bl info tk.failAppend tk.fix tk.scanTime st tk.devs) r hr
    rcases h1 with h1 | ⟨h2, h3⟩
    · exact scanDevices_new_row bl info tk.failAppend tk.fix tk.scanTime st tk.devs r h1
    · right
      refine ⟨h2, ?_⟩
      cases hc : ledgerMem st.data r.mac with
      | false => rfl
      | true =>
        rw [ledgerMem_scanDevices bl info tk.failAppend tk.fix tk.scanTime st tk.devs r.mac hc] at h3
        cases h3

/-- A blacklisted address's ledger entry is untouched by a scan. -/
theorem scanDevices_ledger_blacklisted (bl : List String) (info : DeviceInfo)
    (fa : String → Bool) (fix : Fix) (t : String) (st : ScanState)
    (devs : List (String × String)) (m : String) (hm : m ∈ bl) :
    ledgerMem (scanDevices bl info fa fix t st devs).data m = ledgerMem st.data m := by
  induction devs generalizing st with
  | nil => rfl
  | cons d rest ih =>
    rw [scanDevices_cons]
    have hstep := scanStep_cases bl info fa fix t st d
    rcases hstep with heq | ⟨hdata, _, hbl, _⟩
    · rw [heq]
      exact ih st
    · rw [ih (scanStep bl info fa fix t st d), hdata]
      exact ledgerMem_append_other _ _ _ _ (fun hc => hbl (hc ▸ hm))

/-! ## Concrete fixtures used by witnesses and counterexamples -/

/-- Metadata oracle returning the source's own defaults (empty vendor,
0 RSSI, classification `BT`). -/
def info0 : DeviceInfo :=
  { mfgr := fun _ => "", rssi := fun _ => 0, dtype := fun _ => "BT" }

/-- The all-zero fix. -/
def fix0 : Fix := { lat := 0, lon := 0, alt := 0, acc := 0 }

/-- A scan tick discovering one device twice, with no append failures. -/
def tick0 : ScanTick :=
  { fix := fix0
    scanTime := "2024-01-01 00:00:00"
    failAppend := fun _ => false
    devs := [("aa:bb:cc:11:22:33", "Dev"), ("aa:bb:cc:11:22:33", "Dev")] }

/-! ## C1 -/

/-- C1: within one file epoch, a scan sequence writes at most one CSV
row per normalized address — an address already in the ledger is
skipped, each row's address is tracked in the ledger, and (when no
append fails) an address is in the ledger exactly when its row was
produced; hence no two data rows of the active file share a
normalized address. -/
theorem scan_no_duplicate_rows (bl : List String) (info : DeviceInfo)
    (ticks : List ScanTick) :
    ((runScans bl info freshState ticks).fileRows.map CsvRow.mac).Nodup ∧
    (∀ r ∈ (runScans bl info freshState ticks).fileRows,
        ledgerMem (runScans bl info freshState ticks).data r.mac = true) ∧
    (∀ (fa : String → Bool) (fix : Fix) (t : String) (st : ScanState)
        (dev : String × String), ledgerMem st.data (normalize dev.1) = true →
        scanStep bl info fa fix t st dev = st) ∧
    ((∀ tk ∈ ticks, ∀ m, tk.failAppend m = false) →
      ∀ m, ledgerMem (runScans bl info freshState ticks).data m = true ↔
        m ∈ (runScans bl info freshState ticks).fileRows.map CsvRow.mac) := by
  have hfresh : ScanInv freshState := by
    constructor
    · simp [freshState]
    · intro r hr
      simp [freshState] at hr
  have h1 := scanInv_runScans bl info freshState ticks hfresh
  refine ⟨h1.1, h1.2, ?_, ?_⟩
  · intro fa fix t st dev h
    exact scanStep_seen bl info fa fix t st dev h
  · intro hfa
    refine scanInvExact_runScans bl info freshState ticks hfa ?_
    intro m
    simp [freshState, ledgerMem]

/-- Witness for C1 at a concrete blacklist, metadata oracle and a tick
that discovers the same address twice without append failures. -/
theorem scan_no_duplicate_rows_witness :
    ((runScans ["FF:FF:FF:FF:FF:FF"] info0 freshState [tick0]).fileRows.map CsvRow.mac).Nodup ∧
    (ledgerMem (runScans ["FF:FF:FF:FF:FF:FF"] info0 freshState [tick0]).data
        "AA:BB:CC:11:22:33" = true ↔
      "AA:BB:CC:11:22:33" ∈
        (runScans ["FF:FF:FF:FF:FF:FF"] info0 freshState [tick0]).fileRows.map CsvRow.mac) := by
  have h := scan_no_duplicate_rows ["FF:FF:FF:FF:FF:FF"] info0 [tick0]
  refine ⟨h.1, h.2.2.2 ?_ "AA:BB:CC:11:22:33"⟩
  intro tk htk m
  rw [List.mem_singleton] at htk
  subst htk
  rfl

/-! ## C2 -/

/-- C2: the rotation check rotates exactly when the active file exists
and its size is at or above the threshold; on rotation the file moves
into the pending directory under its name with the timestamp suffix
inserted before the `.csv` extension, the new active file holds only
the preamble and header lines, and the ledger is cleared; below the
threshold (or with no active file) nothing changes. -/
theorem check_rollover_rotates_exactly_at_threshold
    (base : String) (sizeLimit : Nat) (ts : String)
    (fs : FsState) (led : Ledger) (content : List String)
    (hact : fs.active = some content) :
    (sizeLimit ≤ getsize content →
      check_rollover base sizeLimit ts fs led =
        ({ active := some [preambleLine, headerLine],
           pending := fs.pending ++ [(rotatedName base ts, content)] }, [])) ∧
    (getsize content < sizeLimit → check_rollover base sizeLimit ts fs led = (fs, led)) ∧
    (∀ fs2 : FsState, fs2.active = none →
      check_rollover base sizeLimit ts fs2 led = (fs2, led)) ∧
    rotatedName "bluetooth_devices.csv" ts = "bluetooth_devices_" ++ ts ++ ".csv" := by
  refine ⟨?_, ?_, ?_, rfl⟩
  · intro h
    simp only [check_rollover, hact]
    rw [if_pos h]
    rfl
  · intro h
    simp only [check_rollover, hact]
    rw [if_neg (by omega)]
  · intro fs2 h2
    simp only [check_rollover, h2]

/-- Witness for C2: a one-line active file of 2 bytes against a 2-byte
threshold rotates into the pending directory with the timestamped name
and clears a non-empty ledger. -/
theorem check_rollover_witness :
    check_rollover "bluetooth_devices.csv" 2 "20240101_120000"
        { active := some ["x"], pending := [] } [("AA:BB:CC:11:22:33", "t")] =
      ({ active := some [preambleLine, headerLine],
         pending := [("bluetooth_devices_20240101_120000.csv", ["x"])] }, []) := by
  have h := check_rollover_rotates_exactly_at_threshold "bluetooth_devices.csv" 2
    "20240101_120000" { active := some ["x"], pending := [] }
    [("AA:BB:CC:11:22:33", "t")] ["x"] rfl
  rw [h.1 (by decide)]
  rfl

/-! ## C3 -/

/-- C3 counterexample: `_load_existing_devices` does not consult the
blacklist, so bootstrapping from an existing file whose rows contain a
blacklisted address records that address in the ledger — refuting
"never recorded in the ledger by any operation of the system" for the
normalized blacklisted address `AA:BB:CC:DD:EE:FF`. -/
theorem blacklisted_recorded_by_bootstrap :
    "AA:BB:CC:DD:EE:FF" ∈ loadBlacklist ["AA:BB:CC:DD:EE:FF", "11:22:33:44:55:66"] ∧
    ledgerMem
      (_load_existing_devices "2024-01-02 00:00:00"
        [["WigleWifi-1.6", "appRelease=1.0"],
         ["MAC", "SSID", "AuthMode", "FirstSeen"],
         ["AA:BB:CC:DD:EE:FF", "Dev", "Misc [BT]", "2024-01-01 00:00:00"]])
      "AA:BB:CC:DD:EE:FF" = true := by
  constructor
  · decide
  · decide

/-- C3 amended: in the scan path a blacklisted (normalized) address is
never emitted as a CSV row and never recorded in the ledger, and the
blacklist test precedes the ledger lookup (a blacklisted device leaves
any state untouched, whatever the ledger holds); the bootstrap from an
existing file, however, loads rows without consulting the blacklist. -/
theorem blacklisted_never_in_scan (bl : List String) (info : DeviceInfo)
    (fa : String → Bool) (fix : Fix) (t : String) (st : ScanState)
    (devs : List (String × String)) (m : String) (hm : m ∈ bl) :
    (∀ r ∈ (scanDevices bl info fa fix t st devs).fileRows,
        r.mac = m → r ∈ st.fileRows) ∧
    ledgerMem (scanDevices bl info fa fix t st devs).data m = ledgerMem st.data m ∧
    (∀ (st2 : ScanState) (dev : String × String), normalize dev.1 ∈ bl →
        scanStep bl info fa fix t st2 dev = st2) := by
  refine ⟨?_, scanDevices_ledger_blacklisted bl info fa fix t st devs m hm, ?_⟩
  · intro r hr hrm
    rcases scanDevices_new_row bl info fa fix t st devs r hr with h1 | ⟨h2, _⟩
    · exact h1
    · exact absurd (hrm ▸ hm) h2
  · intro st2 dev hdev
    simp only [scanStep]
    rw [if_pos hdev]

/-- Witness for C3 (amended) at a concrete blacklist and a scan that
rediscovers the blacklisted address from an empty epoch state. -/
theorem blacklisted_never_in_scan_witness :
    (∀ r ∈ (scanDevices (loadBlacklist ["aa:bb:cc:dd:ee:ff"]) info0 (fun _ => false)
        fix0 "2024-01-01 00:00:00" freshState
        [("aa:bb:cc:dd:ee:ff", "Bad"), ("11:22:33:44:55:77", "Ok")]).fileRows,
        r.mac = "AA:BB:CC:DD:EE:FF" → r ∈ freshState.fileRows) ∧
    ledgerMem (scanDevices (loadBlacklist ["aa:bb:cc:dd:ee:ff"]) info0 (fun _ => false)
        fix0 "2024-01-01 00:00:00" freshState
        [("aa:bb:cc:dd:ee:ff", "Bad"), ("11:22:33:44:55:77", "Ok")]).data
      "AA:BB:CC:DD:EE:FF" = ledgerMem freshState.data "AA:BB:CC:DD:EE:FF" := by
  have h := blacklisted_never_in_scan (loadBlacklist ["aa:bb:cc:dd:ee:ff"]) info0
    (fun _ => false) fix0 "2024-01-01 00:00:00" freshState
    [("aa:bb:cc:dd:ee:ff", "Bad"), ("11:22:33:44:55:77", "Ok")]
    "AA:BB:CC:DD:EE:FF" (by decide)
  exact ⟨h.1, h.2.1⟩

/-! ## C9 -/

/-- C9: a newly discovered address goes into the ledger before the row
append is attempted; when the append raises (`failAppend`), the scan
continues with the remaining devices from a state whose ledger already
holds the address and whose file is unchanged, the address stays in
the ledger, and for the rest of the epoch no row for it is ever
produced (it is never retried). -/
theorem append_failure_never_retried (bl : List String) (info : DeviceInfo)
    (fa : String → Bool) (fix : Fix) (t : String) (st : ScanState)
    (raw nm : String) (rest : List (String × String))
    (hbl : normalize raw ∉ bl)
    (hnew : ledgerMem st.data (normalize raw) = false)
    (hfa : fa (normalize raw) = true) :
    (scanDevices bl info fa fix t st ((raw, nm) :: rest) =
      scanDevices bl info fa fix t
        { data := st.data ++ [(normalize raw, t)], fileRows := st.fileRows } rest) ∧
    ledgerMem (scanDevices bl info fa fix t st ((raw, nm) :: rest)).data
      (normalize raw) = true ∧
    (∀ st2 : ScanState, ledgerMem st2.data (normalize raw) = true →
      ∀ ticks : List ScanTick, ∀ r ∈ (runScans bl info st2 ticks).fileRows,
        r.mac = normalize raw → r ∈ st2.fileRows) := by
  have hstep : scanStep bl info fa fix t st (raw, nm) =
      { data := st.data ++ [(normalize raw, t)], fileRows := st.fileRows } := by
    simp only [scanStep]
    rw [if_neg hbl, if_neg (by simp [hnew]), if_pos hfa]
  refine ⟨?_, ?_, ?_⟩
  · rw [scanDevices_cons, hstep]
  · rw [scanDevices_cons, hstep]
    exact ledgerMem_scanDevices bl info fa fix t _ rest (normalize raw)
      (by simpa using ledgerMem_append_self st.data (normalize raw) t)
  · intro st2 hseen ticks r hr hrm
    rcases runScans_new_row bl info st2 ticks r hr with h1 | ⟨_, h2⟩
    · exact h1
    · rw [hrm, hseen] at h2
      cases h2

/-- Witness for C9: the append for `AA:BB:CC:11:22:33` fails during a
scan from the fresh epoch state; the address still lands in the
ledger, and a later tick rediscovering it yields no row. -/
theorem append_failure_never_retried_witness :
    (scanDevices [] info0 (fun m => m == "AA:BB:CC:11:22:33") fix0 "2024-01-01 00:00:00"
        freshState [("aa:bb:cc:11:22:33", "Dev"), ("11:22:33:44:55:77", "Ok")] =
      scanDevices [] info0 (fun m => m == "AA:BB:CC:11:22:33") fix0 "2024-01-01 00:00:00"
        { data := [("AA:BB:CC:11:22:33", "2024-01-01 00:00:00")], fileRows := [] }
        [("11:22:33:44:55:77", "Ok")]) ∧
    ledgerMem (scanDevices [] info0 (fun m => m == "AA:BB:CC:11:22:33") fix0
        "2024-01-01 00:00:00" freshState
        [("aa:bb:cc:11:22:33", "Dev"), ("11:22:33:44:55:77", "Ok")]).data
      "AA:BB:CC:11:22:33" = true ∧
    (∀ r ∈ (runScans [] info0
        { data := [("AA:BB:CC:11:22:33", "2024-01-01 00:00:00")], fileRows := [] }
        [tick0]).fileRows,
      r.mac = "AA:BB:CC:11:22:33" →
        r ∈ (ScanState.fileRows
          { data := [("AA:BB:CC:11:22:33", "2024-01-01 00:00:00")], fileRows := [] })) := by
  have h := append_failure_never_retried [] info0 (fun m => m == "AA:BB:CC:11:22:33")
    fix0 "2024-01-01 00:00:00" freshState "aa:bb:cc:11:22:33" "Dev"
    [("11:22:33:44:55:77", "Ok")] (by decide) (by decide) (by decide)
  refine ⟨?_, ?_, ?_⟩
  · have h1 := h.1
    rw [show normalize "aa:bb:cc:11:22:33" = "AA:BB:CC:11:22:33" from by decide] at h1
    simpa [freshState] using h1
  · have h2 := h.2.1
    rw [show normalize "aa:bb:cc:11:22:33" = "AA:BB:CC:11:22:33" from by decide] at h2
    exact h2
  · have h3 := h.2.2 { data := [("AA:BB:CC:11:22:33", "2024-01-01 00:00:00")], fileRows := [] }
      (by rw [show normalize "aa:bb:cc:11:22:33" = "AA:BB:CC:11:22:33" from by decide]; decide)
      [tick0]
    intro r hr hrm
    exact h3 r hr (by rw [show normalize "aa:bb:cc:11:22:33" = "AA:BB:CC:11:22:33" from by decide]; exact hrm)

/-! ## C6 -/

theorem loadRow_nil (now : String) (acc : Ledger) : loadRow now acc [] = acc := rfl

theorem foldl_loadRow (now : String) (rows : List (List String)) (acc : Ledger)
    (hlen : ∀ r ∈ rows, 3 < r.length)
    (hok : ∀ r ∈ rows, rowMac r ≠ "" ∧ rowMac r ≠ "MAC")
    (hnd : (rows.map rowMac).Nodup)
    (hacc : ∀ r ∈ rows, ledgerMem acc (rowMac r) = false) :
    rows.foldl (loadRow now) acc =
      acc ++ rows.map (fun r => (rowMac r, r.getD 3 "")) := by
  induction rows generalizing acc with
  | nil => simp
  | cons r rest ih =>
    have hr : r ∈ r :: rest := List.mem_cons_self _ _
    have h1 : loadRow now acc r = acc ++ [(rowMac r, r.getD 3 "")] := by
      simp only [loadRow]
      rw [if_pos (by have := hlen r hr; omega), if_pos (hok r hr),
        if_neg (by rw [hacc r hr]; simp), if_pos (hlen r hr)]
    rw [List.foldl_cons, h1]
    rw [List.map_cons] at hnd
    have hnd2 := List.nodup_cons.mp hnd
    rw [ih _ (fun x hx => hlen x (List.mem_cons_of_mem _ hx))
        (fun x hx => hok x (List.mem_cons_of_mem _ hx)) hnd2.2 ?_]
    · rw [List.append_assoc, List.singleton_append, List.map_cons]
    · intro x hx
      rw [ledgerMem_append]
      rw [hacc x (List.mem_cons_of_mem _ hx)]
      have hne : rowMac x ≠ rowMac r := by
        intro hc
        exact hnd2.1 (hc ▸ List.mem_map_of_mem rowMac hx)
      simp [hne]

/-- C6: bootstrapping the ledger from an existing file whose preamble
starts with `WigleWifi`, whose header row starts with `MAC`, and whose
N data rows are well-formed (at least four fields, usable distinct
addresses) yields exactly those N normalized addresses, each paired
with the first-seen value from its own row — `now` is never used — and
an empty row anywhere among the data rows is skipped without effect. -/
theorem bootstrap_preserves_first_seen (now : String)
    (pre header : List String) (dataRows : List (List String))
    (hpre : pyStartsWith (pre.headD "") "WigleWifi" = true)
    (hhd : header.headD "" = "MAC") (hhd2 : header ≠ [])
    (hlen : ∀ r ∈ dataRows, 3 < r.length)
    (hok : ∀ r ∈ dataRows, rowMac r ≠ "" ∧ rowMac r ≠ "MAC")
    (hnd : (dataRows.map rowMac).Nodup) :
    _load_existing_devices now (pre :: header :: dataRows) =
      dataRows.map (fun r => (rowMac r, r.getD 3 "")) ∧
    (∀ rows1 rows2 : List (List String),
      _load_existing_devices now (pre :: header :: (rows1 ++ [] :: rows2)) =
        _load_existing_devices now (pre :: header :: (rows1 ++ rows2))) := by
  have hunfold : ∀ rows : List (List String),
      _load_existing_devices now (pre :: header :: rows) =
        rows.foldl (loadRow now) [] := by
    intro rows
    simp only [_load_existing_devices]
    rw [if_pos hpre]
    show (if header.headD "" = "MAC" ∧ header ≠ []
        then List.foldl (loadRow now) [] rows else []) =
      List.foldl (loadRow now) [] rows
    rw [if_pos ⟨hhd, hhd2⟩]
  constructor
  · rw [hunfold]
    rw [foldl_loadRow now dataRows [] hlen hok hnd (fun r _ => rfl)]
    rw [List.nil_append]
  · intro rows1 rows2
    rw [hunfold, hunfold, List.foldl_append, List.foldl_append, List.foldl_cons,
      loadRow_nil]

/-- Witness for C6: a two-row file is bootstrapped into exactly the two
original addresses with their original first-seen values. -/
theorem bootstrap_preserves_first_seen_witness :
    _load_existing_devices "2024-02-02 00:00:00"
      [["WigleWifi-1.6", "appRelease=1.0"],
       ["MAC", "SSID"],
       ["AA:BB:CC:11:22:33", "Dev", "Misc [BT]", "2024-01-01 00:00:00"],
       ["11:22:33:44:55:77", "", "Misc [BLE]", "2024-01-01 00:01:00"]] =
      [("AA:BB:CC:11:22:33", "2024-01-01 00:00:00"),
       ("11:22:33:44:55:77", "2024-01-01 00:01:00")] := by
  have h := bootstrap_preserves_first_seen "2024-02-02 00:00:00"
    ["WigleWifi-1.6", "appRelease=1.0"] ["MAC", "SSID"]
    [["AA:BB:CC:11:22:33", "Dev", "Misc [BT]", "2024-01-01 00:00:00"],
     ["11:22:33:44:55:77", "", "Misc [BLE]", "2024-01-01 00:01:00"]]
    (by decide) (by decide) (by decide) (by decide) (by decide) (by decide)
  rw [h.1]
  decide

/-! ## C7 -/

theorem findTPV_eq_none (msgs : List GpsMsg) (h : ∀ m ∈ msgs, isTPV m = false) :
    findTPV msgs = none := by
  induction msgs with
  | nil => rfl
  | cons m rest ih =>
    simp only [findTPV]
    rw [h m (List.mem_cons_self _ _)]
    exact ih (fun x hx => h x (List.mem_cons_of_mem _ hx))

/-- C7: on every failing outcome of the GPS query — connection failure
(`connected = false`) or no `TPV` message arriving in time (malformed
JSON is never `TPV`) — `get_gps_coords` returns the all-zero fix
without raising, the zero values format as `0.000000000` latitude and
longitude, `0.0` altitude and `0.000000` accuracy in the CSV row, and
a scan discovering a new device still appends its row with exactly
those formatted zero fields. -/
theorem gps_failure_yields_zero_fix (connected : Bool) (msgs : List GpsMsg)
    (hfail : connected = false ∨ ∀ m ∈ msgs, isTPV m = false) :
    get_gps_coords connected msgs = fix0 ∧
    ((mkRow info0 (get_gps_coords connected msgs) "AA:BB:CC:11:22:33" "Dev"
        "2024-01-01 00:00:00").lat = "0.000000000" ∧
     (mkRow info0 (get_gps_coords connected msgs) "AA:BB:CC:11:22:33" "Dev"
        "2024-01-01 00:00:00").lon = "0.000000000" ∧
     (mkRow info0 (get_gps_coords connected msgs) "AA:BB:CC:11:22:33" "Dev"
        "2024-01-01 00:00:00").alt = "0.0" ∧
     (mkRow info0 (get_gps_coords connected msgs) "AA:BB:CC:11:22:33" "Dev"
        "2024-01-01 00:00:00").acc = "0.000000") ∧
    (∀ (bl : List String) (info : DeviceInfo) (fa : String → Bool) (t : String)
        (st : ScanState) (raw nm : String),
      normalize raw ∉ bl → ledgerMem st.data (normalize raw) = false →
      fa (normalize raw) = false →
      scanStep bl info fa (get_gps_coords connected msgs) t st (raw, nm) =
        { data := st.data ++ [(normalize raw, t)],
          fileRows := st.fileRows ++
            [mkRow info (get_gps_coords connected msgs) (normalize raw) nm t] }) := by
  have hz : get_gps_coords connected msgs = fix0 := by
    rcases hfail with h | h
    · subst h
      rfl
    · cases connected with
      | false => rfl
      | true =>
        simp only [get_gps_coords, if_pos rfl]
        rw [findTPV_eq_none msgs h]
        rfl
  refine ⟨hz, ?_, ?_⟩
  · rw [hz]
    refine ⟨?_, ?_, ?_, ?_⟩ <;> decide
  · intro bl info fa t st raw nm hbl hnew hfa
    simp only [scanStep]
    rw [if_neg hbl, if_neg (by simp [hnew]), if_neg (by simp [hfa])]

/-- Witness for C7: the daemon answers only a malformed line and a
non-`TPV` object before the deadline; the fix is all zeros and the new
device's row carries the zero-formatted coordinate fields. -/
theorem gps_failure_yields_zero_fix_witness :
    get_gps_coords true [GpsMsg.malformed,
      GpsMsg.obj "SKY" none none none none none none] = fix0 ∧
    (mkRow info0 (get_gps_coords true [GpsMsg.malformed,
        GpsMsg.obj "SKY" none none none none none none])
      "AA:BB:CC:11:22:33" "Dev" "2024-01-01 00:00:00").lat = "0.000000000" := by
  have h := gps_failure_yields_zero_fix true
    [GpsMsg.malformed, GpsMsg.obj "SKY" none none none none none none]
    (Or.inr (by decide))
  exact ⟨h.1, h.2.1.1⟩

/-! ## C8 -/

theorem uploadAllFiles_go (up : String → UploadFs → Bool × UploadFs)
    (files : List String) :
    ∀ p : List (String × Bool) × UploadFs,
      ((files.foldl (fun acc f =>
          let r := up f acc.2
          (acc.1 ++ [(f, r.1)], r.2)) p).1).map Prod.fst =
        p.1.map Prod.fst ++ files := by
  induction files with
  | nil => simp
  | cons f rest ih =>
    intro p
    rw [List.foldl_cons, ih]
    simp

/-- Whatever each upload returns, a drain attempts every candidate of
its list, in order. -/
theorem uploadAllFiles_fst (up : String → UploadFs → Bool × UploadFs)
    (files : List String) (fs : UploadFs) :
    (uploadAllFiles up files fs).1.map Prod.fst = files := by
  simpa using uploadAllFiles_go up files ([], fs)

/-- C8: the pending-candidate enumeration returns exactly the names of
the `.csv` regular files of the upload directory, sorted by
modification time ascending, and one drain attempts every candidate in
exactly that order no matter which uploads fail. -/
theorem pending_order_and_drain_continues (entries : List DirEntry)
    (up : String → UploadFs → Bool × UploadFs) (fs : UploadFs) :
    List.Sorted mtimeLe (sortByMtime (entries.filter isCsvFile)) ∧
    (sortByMtime (entries.filter isCsvFile)).Perm (entries.filter isCsvFile) ∧
    _list_csv_files entries = (sortByMtime (entries.filter isCsvFile)).map DirEntry.name ∧
    (uploadAllFiles up (_list_csv_files entries) fs).1.map Prod.fst =
      _list_csv_files entries :=
  ⟨List.sorted_insertionSort mtimeLe _, List.perm_insertionSort mtimeLe _, rfl,
    uploadAllFiles_fst up (_list_csv_files entries) fs⟩

/-! ## C4 -/

/-- C4: with the filesystem healthy, every failing upload outcome —
missing credentials, transport error, non-200 status, non-JSON body,
or a falsy `success` indicator — returns `False` and leaves the
pending file untouched; a 200 response with a truthy `success` returns
`True`, moves the file into the uploaded holding area, and deletes it
from there exactly when `remove_on_success` is set. -/
theorem upload_file_outcomes (cfg : UploadCfg) (f : String) (fs : UploadFs)
    (hc1 : cfg.wigle_name ≠ "") (hc2 : cfg.wigle_api_token ≠ "") :
    (∀ (cfg2 : UploadCfg) (http : HttpResult),
      (cfg2.wigle_name = "" ∨ cfg2.wigle_api_token = "") →
      _upload_file cfg2 false false http f fs = (false, fs)) ∧
    (_upload_file cfg false false HttpResult.netError f fs = (false, fs)) ∧
    (∀ status body, status ≠ 200 →
      _upload_file cfg false false (HttpResult.resp status body) f fs = (false, fs)) ∧
    (_upload_file cfg false false (HttpResult.resp 200 none) f fs = (false, fs)) ∧
    (_upload_file cfg false false (HttpResult.resp 200 (some false)) f fs = (false, fs)) ∧
    (cfg.remove_on_success = true →
      _upload_file cfg false false (HttpResult.resp 200 (some true)) f fs =
        (true, { pending := fs.pending.erase f,
                 uploaded := (fs.uploaded ++ [f]).erase f })) ∧
    (cfg.remove_on_success = false →
      _upload_file cfg false false (HttpResult.resp 200 (some true)) f fs =
        (true, { pending := fs.pending.erase f, uploaded := fs.uploaded ++ [f] })) ∧
    (f ∉ fs.uploaded → (fs.uploaded ++ [f]).erase f = fs.uploaded) := by
  have hcred : ¬(cfg.wigle_name = "" ∨ cfg.wigle_api_token = "") := by
    rintro (h | h)
    · exact hc1 h
    · exact hc2 h
  refine ⟨?_, ?_, ?_, ?_, ?_, ?_, ?_, ?_⟩
  · intro cfg2 http h
    simp only [_upload_file]
    rw [if_pos h]
  · simp only [_upload_file]
    rw [if_neg hcred]
  · intro status body h
    simp only [_upload_file]
    rw [if_neg hcred, if_neg h]
  · simp only [_upload_file]
    rw [if_neg hcred]
    simp
  · simp only [_upload_file]
    rw [if_neg hcred]
    simp
  · intro hrem
    simp only [_upload_file]
    rw [if_neg hcred]
    simp [hrem]
  · intro hrem
    simp only [_upload_file]
    rw [if_neg hcred]
    simp [hrem]
  · intro hf
    rw [List.erase_append_right _ hf, List.erase_cons_head, List.append_nil]

/-- A concrete uploader configuration with credentials present and
retention-deletion enabled. -/
def cfg0 : UploadCfg :=
  { wigle_name := "user", wigle_api_token := "token", remove_on_success := true }

/-- A concrete two-file pending directory with an empty holding area. -/
def upFs0 : UploadFs := { pending := ["a.csv", "b.csv"], uploaded := [] }

/-- Witness for C4: a configured uploader moving `a.csv` out of pending
with retention-deletion enabled deletes it from the holding area, while
an HTTP 500 leaves everything in place. -/
theorem upload_file_outcomes_witness :
    _upload_file cfg0 false false (HttpResult.resp 200 (some true)) "a.csv" upFs0 =
      (true, { pending := ["b.csv"], uploaded := [] }) ∧
    _upload_file cfg0 false false (HttpResult.resp 500 none) "a.csv" upFs0 =
      (false, upFs0) := by
  have h := upload_file_outcomes cfg0 "a.csv" upFs0 (by decide) (by decide)
  constructor
  · rw [h.2.2.2.2.2.1 rfl]
    decide
  · rw [h.2.2.1 500 none (by decide)]

/-! ## C10 -/

/-- C10 counterexample: on HTTP 200 with a truthy `success`, a
successful move followed by a failing delete does NOT leave the file
in the pending directory — `_upload_file` returns `True` with the file
sitting in the uploaded holding area, pending now empty. -/
theorem upload_delete_failure_file_not_pending :
    _upload_file cfg0 false true (HttpResult.resp 200 (some true)) "a.csv"
      { pending := ["a.csv"], uploaded := [] } =
      (true, { pending := [], uploaded := ["a.csv"] }) ∧
    "a.csv" ∉ (UploadFs.pending { pending := [], uploaded := ["a.csv"] }) := by
  constructor
  · decide
  · decide

/-- C10 amended: when the move into the uploaded holding area fails,
`_upload_file` still returns `True` while the filesystem is untouched,
so the file stays among the pending candidates and a later drain
attempts it again; when the move succeeds but the deletion fails, the
call still returns `True` but the file remains in the uploaded holding
area, no longer pending. -/
theorem upload_move_failure_still_succeeds (cfg : UploadCfg) (f : String)
    (fs : UploadFs) (dF : Bool)
    (hc1 : cfg.wigle_name ≠ "") (hc2 : cfg.wigle_api_token ≠ "") :
    (_upload_file cfg true dF (HttpResult.resp 200 (some true)) f fs = (true, fs)) ∧
    (f ∈ fs.pending →
      f ∈ (_upload_file cfg true dF (HttpResult.resp 200 (some true)) f fs).2.pending) ∧
    (∀ up : String → UploadFs → Bool × UploadFs,
      (uploadAllFiles up
        (_upload_file cfg true dF (HttpResult.resp 200 (some true)) f fs).2.pending
        fs).1.map Prod.fst =
      (_upload_file cfg true dF (HttpResult.resp 200 (some true)) f fs).2.pending) ∧
    (cfg.remove_on_success = true →
      _upload_file cfg false true (HttpResult.resp 200 (some true)) f fs =
        (true, { pending := fs.pending.erase f, uploaded := fs.uploaded ++ [f] })) := by
  have hcred : ¬(cfg.wigle_name = "" ∨ cfg.wigle_api_token = "") := by
    rintro (h | h)
    · exact hc1 h
    · exact hc2 h
  have hmv : _upload_file cfg true dF (HttpResult.resp 200 (some true)) f fs = (true, fs) := by
    simp only [_upload_file]
    rw [if_neg hcred]
    simp
  refine ⟨hmv, ?_, ?_, ?_⟩
  · intro hp
    rw [hmv]
    exact hp
  · intro up
    exact uploadAllFiles_fst up _ fs
  · intro hrem
    simp only [_upload_file]
    rw [if_neg hcred]
    simp [hrem]

/-- Witness for C10 (amended) at a concrete configuration and a
one-file pending directory. -/
theorem upload_move_failure_still_succeeds_witness :
    (_upload_file cfg0 true false (HttpResult.resp 200 (some true)) "a.csv"
      { pending := ["a.csv"], uploaded := [] } =
      (true, { pending := ["a.csv"], uploaded := [] })) ∧
    "a.csv" ∈ (_upload_file cfg0 true false (HttpResult.resp 200 (some true)) "a.csv"
      { pending := ["a.csv"], uploaded := [] }).2.pending := by
  have h := upload_move_failure_still_succeeds cfg0
    "a.csv" { pending := ["a.csv"], uploaded := [] } false
    (by decide) (by decide)
  exact ⟨h.1, h.2.1 (by decide)⟩

/-! ## C5 -/

/-- C5 counterexample: the `locked()` test and the `with`-block
acquisition are two separate operations.  In this interleaving both
triggers pass the `locked()` test before either acquires; after three
steps A holds the lock while B sits blocked at the acquire (scheduling
B makes no progress — it does not return), and once A finishes B goes
on to execute the drain body itself.  The second concurrent trigger is
therefore queued behind the lock, not dropped. -/
theorem second_drain_queued_not_dropped :
    (runSched initLock [Tid.A, Tid.B, Tid.A]).lock = true ∧
    (runSched initLock [Tid.A, Tid.B, Tid.A]).pcB = DrainPC.acquire ∧
    runSched initLock [Tid.A, Tid.B, Tid.A, Tid.B] =
      runSched initLock [Tid.A, Tid.B, Tid.A] ∧
    runSched initLock [Tid.A, Tid.B, Tid.A, Tid.B, Tid.A, Tid.A, Tid.B, Tid.B, Tid.B] =
      { lock := false, pcA := DrainPC.done true, pcB := DrainPC.done true } := by
  refine ⟨?_, ?_, ?_, ?_⟩ <;> decide

/-- The lock invariant: any worker inside the `with` region holds the
lock, and the two workers are never inside it together. -/
def LockInv (s : LockState) : Prop :=
  (inCrit s.pcA = true → s.lock = true) ∧
  (inCrit s.pcB = true → s.lock = true) ∧
  ¬(inCrit s.pcA = true ∧ inCrit s.pcB = true)

instance (s : LockState) : Decidable (LockInv s) :=
  inferInstanceAs (Decidable
    ((inCrit s.pcA = true → s.lock = true) ∧
     (inCrit s.pcB = true → s.lock = true) ∧
     ¬(inCrit s.pcA = true ∧ inCrit s.pcB = true)))

theorem lockInv_step : ∀ (s : LockState) (t : Tid), LockInv s → LockInv (stepSys s t) := by
  decide

theorem lockInv_runSched (sched : List Tid) :
    ∀ s : LockState, LockInv s → LockInv (runSched s sched) := by
  induction sched with
  | nil => exact fun _ h => h
  | cons t rest ih => exact fun s h => ih (stepSys s t) (lockInv_step s t h)

/-- C5 amended: the `with self._uploader_lock` block does guarantee
mutual exclusion — in every interleaving at most one drain executes at
a time — and a trigger that observes the lock held at its initial
`locked()` check returns immediately without draining; but the check
and the acquisition are not atomic, so a trigger that passes the check
before the first drain acquires blocks on the lock and runs the drain
afterwards instead of being dropped. -/
theorem at_most_one_drain (sched : List Tid) (s : LockState)
    (hs : s = runSched initLock sched) :
    ¬(inCrit s.pcA = true ∧ inCrit s.pcB = true) ∧
    (s.pcA = DrainPC.check → s.lock = true →
      (stepSys s Tid.A).pcA = DrainPC.done false) ∧
    (s.pcB = DrainPC.check → s.lock = true →
      (stepSys s Tid.B).pcB = DrainPC.done false) := by
  subst hs
  refine ⟨(lockInv_runSched sched initLock (by decide)).2.2, ?_, ?_⟩
  · intro hpc hl
    simp [stepSys, stepThread, hpc, hl]
  · intro hpc hl
    simp [stepSys, stepThread, hpc, hl]

/-- Witness for C5 (amended): at the state where A holds the lock and B
is blocked, the two workers are not both inside the lock region, and
from the initial state a checking worker with the lock held would exit
without draining. -/
theorem at_most_one_drain_witness :
    ¬(inCrit (runSched initLock [Tid.A, Tid.B, Tid.A]).pcA = true ∧
      inCrit (runSched initLock [Tid.A, Tid.B, Tid.A]).pcB = true) :=
  (at_most_one_drain [Tid.A, Tid.B, Tid.A]
    (runSched initLock [Tid.A, Tid.B, Tid.A]) rfl).1

end BtSniffer
